import Mathlib

/-
Shallow embedding of the scan-handover backend (server/controllers/scanController.js
and the Record Store / Destination Aggregator contracts of the spec).

Conventions:
- JS timestamps (`Date` values) are modelled as natural numbers of milliseconds;
  `new Date(t).toDateString()` equality is modelled as equality of the day index
  `t / 86400000` (the local-midnight offset is a constant shift and does not
  affect any equality of day buckets).
- The record store (server/models/dataStore.js, not part of the sources) is
  modelled from the spec: a list of ScanRecords with read-all, append, update-by-id
  and delete-by-id operations; record identifiers are unique (spec §3).
-/

/-- Status enum of a ScanRecord (spec §3: TRUE | PENDING | OVERSCANNED). -/
inductive FinalStatus
  | TRUE
  | PENDING
  | OVERSCANNED
deriving DecidableEq

/-- A scan record as stored by the backend (spec §3 and scanController.js). -/
structure ScanRecord where
  id : Nat
  boxId : String
  timestamp : Nat
  consignment : String
  destination : String
  scannedBy : String
  finalStatus : FinalStatus
  isDuplicate : Bool
  duplicateCount : Nat
  lastScanned : Nat
deriving DecidableEq

/-- Day index of a millisecond timestamp; models `new Date(t).toDateString()`
bucketing into calendar days. -/
def dayOf (t : Nat) : Nat := t / 86400000

/-- Two timestamps fall on the same calendar day
(`new Date(a).toDateString() === new Date(b).toDateString()`). -/
def sameDay (a b : Nat) : Bool := dayOf a == dayOf b

/-- Model of JavaScript `String.prototype.trim` (used by
`boxId.toString().trim()` in scanController.js): strips leading and trailing
whitespace. Defined structurally over the character list so it reduces in the
kernel. -/
def jsTrim (s : String) : String :=
  ⟨((s.data.dropWhile Char.isWhitespace).reverse.dropWhile
      Char.isWhitespace).reverse⟩

/-- Outcome of the scan command (spec §4.1; ValidationError from spec §7). -/
inductive Outcome
  | New
  | RejectedDuplicate
  | AcceptedDuplicate
  | ValidationError
deriving DecidableEq

/-- Result of one scan command: the outcome, the `success` flag of the JSON
response, the store after the command, the record carried by the response
(`duplicateData` on rejection, `row` on acceptance, the created record on New),
and whether a Destination Aggregator update was triggered. -/
structure ScanResult where
  outcome : Outcome
  success : Bool
  store : List ScanRecord
  record : Option ScanRecord
  aggUpdated : Bool
deriving DecidableEq

/-- Modelled from the spec: `updateScan(id, updated)` of the record store
(dataStore.js is not among the sources) replaces the record with the given
identifier by the updated record. -/
def updateScanStore (s : List ScanRecord) (scanId : Nat) (r : ScanRecord) :
    List ScanRecord :=
  s.map fun x => if x.id = scanId then r else x

/-- Modelled from the spec (§4.4): `deleteScan(scanId)` of the record store
removes the record with the given identifier and reports success; it reports
`false` (NotFound) when no such record exists. -/
def deleteFromStore (s : List ScanRecord) (scanId : Nat) :
    Bool × List ScanRecord :=
  if s.any (fun x => x.id == scanId) then
    (true, s.filter fun x => x.id != scanId)
  else
    (false, s)

/-- The scans whose timestamp falls on the current calendar day
(scanController.js: `scans.filter(scan => new Date(scan.timestamp).toDateString() === today)`). -/
def todayScans (s : List ScanRecord) (now : Nat) : List ScanRecord :=
  s.filter fun r => sameDay r.timestamp now

/-- Modelled from the spec (§4.1): the ScanRecord created on a New outcome.
The creation path is elided in scanController.js (`[Previous scan logic here...]`);
per the spec it records the trimmed box identifier, `isDuplicate=false`,
`duplicateCount=1`, and a finalStatus/destination coming from the external
dispatch-match policy (passed in as parameters here, spec §9). -/
def mkNewRecord (freshId : Nat) (b : String) (now : Nat) (userEmail : String)
    (status : FinalStatus) (dest : String) : ScanRecord :=
  { id := freshId
    boxId := b
    timestamp := now
    consignment := ""
    destination := dest
    scannedBy := userEmail
    finalStatus := status
    isDuplicate := false
    duplicateCount := 1
    lastScanned := now }

/-- The in-place mutation of an existing same-day record when a duplicate is
accepted (scanController.js: `{...existingScan, isDuplicate: true,
duplicateCount: (existingScan.duplicateCount || 1) + 1, lastScanned: new Date()}`;
the `|| 1` default for a falsy stored count is the `if ... = 0` branch). -/
def updRec (existingScan : ScanRecord) (now : Nat) : ScanRecord :=
  { existingScan with
    isDuplicate := true
    duplicateCount :=
      (if existingScan.duplicateCount = 0 then 1
       else existingScan.duplicateCount) + 1
    lastScanned := now }

/-- The scan command, from scanController.js `scanBox`.
The two duplicate branches are translated directly from the source:
a same-day record with the trimmed boxId and `allowDuplicate=false` is rejected
without mutation; with `allowDuplicate=true` the existing record is updated with
`isDuplicate=true`, `duplicateCount = (existing.duplicateCount || 1) + 1` and a
refreshed `lastScanned`. The remaining path (validation of an empty trimmed
boxId with ValidationError, and creation of a new record) is modelled from the
spec (§4.1, §7), since that code is elided in the source. `aggUpdated` records
the spec's side-effect wiring (§4.1): New and AcceptedDuplicate trigger a
Destination Aggregator update, RejectedDuplicate and ValidationError do not. -/
def scanBox (s : List ScanRecord) (now : Nat) (boxId : String)
    (userEmail : String) (allowDuplicate : Bool) (freshId : Nat)
    (status : FinalStatus) (dest : String) : ScanResult :=
  let b := jsTrim boxId
  match (todayScans s now).find? (fun r => r.boxId == b) with
  | some existingScan =>
    if !allowDuplicate then
      { outcome := Outcome.RejectedDuplicate
        success := false
        store := s
        record := some existingScan
        aggUpdated := false }
    else
      let updatedScan := updRec existingScan now
      { outcome := Outcome.AcceptedDuplicate
        success := true
        store := updateScanStore s existingScan.id updatedScan
        record := some updatedScan
        aggUpdated := true }
  | none =>
    if b = "" then
      { outcome := Outcome.ValidationError
        success := false
        store := s
        record := none
        aggUpdated := false }
    else
      let newScan := mkNewRecord freshId b now userEmail status dest
      { outcome := Outcome.New
        success := true
        store := s ++ [newScan]
        record := some newScan
        aggUpdated := true }

/-- The history listing, from scanController.js `getScansWithDuplicates`:
every stored scan is re-emitted with `isDuplicate` and `duplicateCount`
recomputed from the multiplicity of its (boxId, day) among the stored scans. -/
def getScansWithDuplicates (s : List ScanRecord) : List ScanRecord :=
  s.map fun scan =>
    let sameDayScans :=
      s.filter fun r => r.boxId == scan.boxId && sameDay r.timestamp scan.timestamp
    { scan with
      isDuplicate := decide (1 < sameDayScans.length)
      duplicateCount := sameDayScans.length }

/-- A record counts toward the destination aggregates when its finalStatus has
been determined as TRUE (spec glossary: finalized records count toward
destination aggregates). -/
def finalized (r : ScanRecord) : Bool := r.finalStatus == FinalStatus.TRUE

/-- Full recompute of the destination counts: a scan over all stored finalized
ScanRecords grouped by destination label (spec §4.3). -/
def recompute (s : List ScanRecord) : String → Nat :=
  fun d => s.countP fun r => finalized r && r.destination == d

/-- Modelled from the spec (§4.3): `apply(destination, +1)` on the incremental
counts. -/
def incr (c : String → Nat) (d : String) : String → Nat :=
  fun x => if x = d then c x + 1 else c x

/-- Modelled from the spec (§4.3, §4.4): `apply(destination, -1)` on the
incremental counts. -/
def decr (c : String → Nat) (d : String) : String → Nat :=
  fun x => if x = d then c x - 1 else c x

/-- The backend state: the record store, the incrementally maintained
Destination Aggregator counts, and the next fresh record identifier
(spec §3: record identifiers are unique; modelled as a counter). -/
structure SysState where
  records : List ScanRecord
  counts : String → Nat
  nextId : Nat

/-- The initial state: empty store, all counts zero. -/
def initState : SysState := { records := [], counts := fun _ => 0, nextId := 0 }

/-- An externally issued operation: a scan command (with the dispatch-match
classification of a would-be new record passed in as status/destination,
spec §9) or a delete command. -/
inductive Op
  | scan (now : Nat) (boxId : String) (userEmail : String)
      (allowDuplicate : Bool) (status : FinalStatus) (dest : String)
  | del (scanId : Nat)

/-- One step of the backend: runs the scan command through `scanBox` and
applies the Destination Aggregator delta (a New finalized record increments its
destination; an accepted duplicate changes no finalized record, so no delta;
spec §4.3), or runs a delete, decrementing the destination of the removed
record when it was finalized (spec §4.4). -/
def step (st : SysState) (op : Op) : SysState :=
  match op with
  | Op.scan now boxId userEmail allowDuplicate status dest =>
    let res := scanBox st.records now boxId userEmail allowDuplicate
      st.nextId status dest
    { records := res.store
      counts :=
        if res.outcome == Outcome.New && status == FinalStatus.TRUE then
          incr st.counts dest
        else st.counts
      nextId := st.nextId + 1 }
  | Op.del scanId =>
    match st.records.find? (fun r => r.id == scanId) with
    | none => st
    | some r =>
      { records := (deleteFromStore st.records scanId).2
        counts := if finalized r then decr st.counts r.destination else st.counts
        nextId := st.nextId }

/-- Run a sequence of operations from the initial state. -/
def run (ops : List Op) : SysState := ops.foldl step initState

/-
Race model for the scan command. Spec §5: a request runs to completion
without internal suspension except at storage I/O boundaries. In
scanController.js the suspension points of `scanBox` are `await getScans()`
(the read) and `await updateScan(...)` / the elided `await addScan(...)`
(the write). A request is therefore split into two atomic phases: the read,
which snapshots the store, and the act, which classifies against the snapshot
and writes to the live store. There is no mutual-exclusion scope in the source
around this check-then-act sequence.
-/

/-- Parameters of one in-flight scan request. -/
structure ScanRequest where
  now : Nat
  boxId : String
  userEmail : String
  allowDuplicate : Bool
  status : FinalStatus
  dest : String

/-- Execution phase of an in-flight scan request. -/
inductive ReqPhase
  | toRead
  | toAct (snapshot : List ScanRecord)
  | finished (outcome : Outcome)
deriving DecidableEq

/-- State of the store with two in-flight scan requests. -/
structure RaceState where
  store : List ScanRecord
  nextId : Nat
  phase1 : ReqPhase
  phase2 : ReqPhase

/-- The act phase of `scanBox`: classify against the snapshot taken at the
`await getScans()` boundary, then write to the live store — exactly the
check-then-act of the source, with the check input frozen in the snapshot. -/
def actOn (store : List ScanRecord) (nextId : Nat) (req : ScanRequest)
    (snapshot : List ScanRecord) : Outcome × List ScanRecord × Nat :=
  let b := jsTrim req.boxId
  match (todayScans snapshot req.now).find? (fun r => r.boxId == b) with
  | some existingScan =>
    if !req.allowDuplicate then
      (Outcome.RejectedDuplicate, store, nextId)
    else
      (Outcome.AcceptedDuplicate,
        updateScanStore store existingScan.id (updRec existingScan req.now),
        nextId)
  | none =>
    if b = "" then
      (Outcome.ValidationError, store, nextId)
    else
      (Outcome.New,
        store ++ [mkNewRecord nextId b req.now req.userEmail req.status req.dest],
        nextId + 1)

/-- Advance one request by one atomic phase. -/
def stepReq (store : List ScanRecord) (nextId : Nat) (req : ScanRequest)
    (ph : ReqPhase) : ReqPhase × List ScanRecord × Nat :=
  match ph with
  | ReqPhase.toRead => (ReqPhase.toAct store, store, nextId)
  | ReqPhase.toAct snapshot =>
    let r := actOn store nextId req snapshot
    (ReqPhase.finished r.1, r.2.1, r.2.2)
  | ReqPhase.finished o => (ReqPhase.finished o, store, nextId)

/-- One scheduling step: `true` advances request 1, `false` advances
request 2. -/
def raceStep (r1 r2 : ScanRequest) (st : RaceState) (choice : Bool) :
    RaceState :=
  if choice then
    let r := stepReq st.store st.nextId r1 st.phase1
    { store := r.2.1, nextId := r.2.2, phase1 := r.1, phase2 := st.phase2 }
  else
    let r := stepReq st.store st.nextId r2 st.phase2
    { store := r.2.1, nextId := r.2.2, phase1 := st.phase1, phase2 := r.1 }

/-- Run two racing scan requests under a schedule. -/
def runRace (r1 r2 : ScanRequest) (sched : List Bool) (st : RaceState) :
    RaceState :=
  sched.foldl (raceStep r1 r2) st

/-- The module-scope bindings that scanController.js imports from
`../models/dataStore.js` (lines 1–11 of the source). -/
def scanControllerImports : List String :=
  ["getScans", "addScan", "getDispatchData", "getPendingScans",
   "addPendingScan", "removePendingScan", "updateDispatchData",
   "deleteScan", "updateScan"]

/-- The top-level constants scanController.js itself declares
(`export const ...`). -/
def scanControllerTopLevelConsts : List String :=
  ["scanBox", "deleteScan", "getScansWithDuplicates"]

/-- Whether some imported binding is re-declared at module scope — in an ES
module this is an early SyntaxError (duplicate lexical declaration), and even
ignoring it, the inner reference resolves to the local declaration, not the
imported one. -/
def duplicateModuleBinding : Bool :=
  scanControllerImports.any fun n => scanControllerTopLevelConsts.contains n

lemma mem_updateScanStore {s : List ScanRecord} {i : Nat} {u r : ScanRecord}
    (h : r ∈ updateScanStore s i u) : r = u ∨ r ∈ s := by
  rcases List.mem_map.1 h with ⟨x, hx, hfx⟩
  by_cases hid : x.id = i
  · simp only [if_pos hid] at hfx
    exact Or.inl hfx.symm
  · simp only [if_neg hid] at hfx
    exact Or.inr (hfx ▸ hx)

lemma updateScanStore_not_mem {s : List ScanRecord} {i : Nat} {u : ScanRecord}
    (h : ∀ x ∈ s, x.id ≠ i) : updateScanStore s i u = s := by
  induction s with
  | nil => rfl
  | cons hd tl ih =>
    have h1 : hd.id ≠ i := h hd (List.mem_cons_self hd tl)
    have h2 : ∀ x ∈ tl, x.id ≠ i := fun x hx => h x (List.mem_cons_of_mem hd hx)
    show (if hd.id = i then u else hd) :: updateScanStore tl i u = hd :: tl
    rw [if_neg h1, ih h2]

lemma countP_updateScanStore (p : ScanRecord → Bool) :
    ∀ (s : List ScanRecord) (e u : ScanRecord), e ∈ s →
      s.Pairwise (fun a b => a.id ≠ b.id) → p u = p e →
      (updateScanStore s e.id u).countP p = s.countP p := by
  intro s
  induction s with
  | nil => intro e u he _ _; cases he
  | cons hd tl ih =>
    intro e u he hpw hpu
    have hpw1 : ∀ b ∈ tl, hd.id ≠ b.id := (List.pairwise_cons.1 hpw).1
    have hpw2 : tl.Pairwise (fun a b => a.id ≠ b.id) :=
      (List.pairwise_cons.1 hpw).2
    rcases List.mem_cons.1 he with rfl | hmem
    · have htl : updateScanStore tl e.id u = tl :=
        updateScanStore_not_mem fun x hx hcon => hpw1 x hx hcon.symm
      show ((if e.id = e.id then u else e) :: updateScanStore tl e.id u).countP p
        = (e :: tl).countP p
      rw [if_pos rfl, htl, List.countP_cons, List.countP_cons, hpu]
    · have hne : hd.id ≠ e.id := hpw1 e hmem
      show ((if hd.id = e.id then u else hd) :: updateScanStore tl e.id u).countP p
        = (hd :: tl).countP p
      rw [if_neg hne, List.countP_cons, List.countP_cons, ih e u hmem hpw2 hpu]

lemma countP_eraseId (p : ScanRecord → Bool) :
    ∀ (s : List ScanRecord) (r : ScanRecord), r ∈ s →
      s.Pairwise (fun a b => a.id ≠ b.id) →
      (s.filter fun x => x.id != r.id).countP p
        = s.countP p - (if p r then 1 else 0) := by
  intro s
  induction s with
  | nil => intro r hr; cases hr
  | cons hd tl ih =>
    intro r hr hpw
    have hpw1 : ∀ b ∈ tl, hd.id ≠ b.id := (List.pairwise_cons.1 hpw).1
    have hpw2 : tl.Pairwise (fun a b => a.id ≠ b.id) :=
      (List.pairwise_cons.1 hpw).2
    rcases List.mem_cons.1 hr with rfl | hmem
    · have hfil : (tl.filter fun x => x.id != r.id) = tl := by
        apply List.filter_eq_self.2
        intro x hx
        exact bne_iff_ne.2 fun hcon => hpw1 x hx hcon.symm
      have hself : (r.id != r.id) = false := by simp
      rw [List.filter_cons, if_neg (by simp [hself]), hfil, List.countP_cons,
        Nat.add_sub_cancel]
    · have hne : (hd.id != r.id) = true :=
        bne_iff_ne.2 (hpw1 r hmem)
      have hle : (if p r then 1 else 0) ≤ tl.countP p := by
        by_cases hp : p r = true
        · have hpos : 0 < tl.countP p := List.countP_pos_iff.2 ⟨r, hmem, hp⟩
          simpa [hp] using hpos
        · simp [hp]
      rw [List.filter_cons, if_pos (by simp [hne]), List.countP_cons,
        List.countP_cons, ih r hmem hpw2]
      by_cases hp : p r = true
      · simp only [hp, if_true] at hle ⊢
        by_cases hq : p hd = true
        · simp only [hq, if_true]
          omega
        · simp only [hq, if_false]
          omega
      · simp [hp]

lemma ids_updateScanStore {s : List ScanRecord} {i : Nat} {u : ScanRecord}
    (hu : u.id = i) :
    (updateScanStore s i u).map (fun r => r.id) = s.map (fun r => r.id) := by
  induction s with
  | nil => rfl
  | cons hd tl ih =>
    show (if hd.id = i then u else hd).id :: (updateScanStore tl i u).map _
      = hd.id :: tl.map _
    by_cases h : hd.id = i
    · rw [if_pos h, ih]
      simp [hu, h]
    · rw [if_neg h, ih]

lemma pairwise_updateScanStore {s : List ScanRecord} {i : Nat}
    {u : ScanRecord} (hu : u.id = i)
    (hpw : s.Pairwise fun a b => a.id ≠ b.id) :
    (updateScanStore s i u).Pairwise fun a b => a.id ≠ b.id := by
  have h1 : (s.map fun r => r.id).Pairwise (· ≠ ·) :=
    (List.pairwise_map).2 hpw
  have h2 : ((updateScanStore s i u).map fun r => r.id).Pairwise (· ≠ ·) := by
    rw [ids_updateScanStore hu]
    exact h1
  exact (List.pairwise_map).1 h2

lemma scanBox_validation (s : List ScanRecord) (now : Nat) (boxId u : String)
    (a : Bool) (fid : Nat) (status : FinalStatus) (dest : String)
    (hfind : (todayScans s now).find? (fun r => r.boxId == jsTrim boxId) = none)
    (hb : jsTrim boxId = "") :
    scanBox s now boxId u a fid status dest =
      { outcome := Outcome.ValidationError, success := false, store := s,
        record := none, aggUpdated := false } := by
  have hfind2 : (todayScans s now).find? (fun r => r.boxId == "") = none :=
    hb ▸ hfind
  simp [scanBox, hb, hfind2]

lemma scanBox_new (s : List ScanRecord) (now : Nat) (boxId u : String)
    (a : Bool) (fid : Nat) (status : FinalStatus) (dest : String)
    (hfind : (todayScans s now).find? (fun r => r.boxId == jsTrim boxId) = none)
    (hb : jsTrim boxId ≠ "") :
    scanBox s now boxId u a fid status dest =
      { outcome := Outcome.New, success := true,
        store := s ++ [mkNewRecord fid (jsTrim boxId) now u status dest],
        record := some (mkNewRecord fid (jsTrim boxId) now u status dest),
        aggUpdated := true } := by
  simp only [scanBox, hfind, if_neg hb]

lemma scanBox_rejected (s : List ScanRecord) (now : Nat) (boxId u : String)
    (fid : Nat) (status : FinalStatus) (dest : String) (ex : ScanRecord)
    (hfind : (todayScans s now).find? (fun r => r.boxId == jsTrim boxId)
      = some ex) :
    scanBox s now boxId u false fid status dest =
      { outcome := Outcome.RejectedDuplicate, success := false, store := s,
        record := some ex, aggUpdated := false } := by
  simp only [scanBox, hfind, Bool.not_false, if_pos]

lemma scanBox_accepted (s : List ScanRecord) (now : Nat) (boxId u : String)
    (fid : Nat) (status : FinalStatus) (dest : String) (ex : ScanRecord)
    (hfind : (todayScans s now).find? (fun r => r.boxId == jsTrim boxId)
      = some ex) :
    scanBox s now boxId u true fid status dest =
      { outcome := Outcome.AcceptedDuplicate, success := true,
        store := updateScanStore s ex.id (updRec ex now),
        record := some (updRec ex now), aggUpdated := true } := by
  simp only [scanBox, hfind, Bool.not_true, if_neg]
  simp

lemma mem_of_today_find? {s : List ScanRecord} {now : Nat}
    {q : ScanRecord → Bool} {ex : ScanRecord}
    (hfind : (todayScans s now).find? q = some ex) : ex ∈ s :=
  List.mem_of_mem_filter (List.mem_of_find?_eq_some hfind)

lemma updRec_id (ex : ScanRecord) (now : Nat) : (updRec ex now).id = ex.id :=
  rfl

/-- Identifier hygiene of the backend state: stored identifiers are pairwise
distinct (spec §3: the identifier is unique) and below the fresh counter. -/
def IdsOk (st : SysState) : Prop :=
  (st.records.Pairwise fun a b => a.id ≠ b.id) ∧
  ∀ r ∈ st.records, r.id < st.nextId

lemma step_inv (st : SysState) (op : Op) (h1 : IdsOk st)
    (h3 : st.counts = recompute st.records) :
    IdsOk (step st op) ∧ (step st op).counts = recompute (step st op).records := by
  obtain ⟨hpw, hbound⟩ := h1
  cases op with
  | scan now boxId u a status dest =>
    cases hfind : (todayScans st.records now).find?
        (fun r => r.boxId == jsTrim boxId) with
    | none =>
      by_cases hb : jsTrim boxId = ""
      · have hres := scanBox_validation st.records now boxId u a st.nextId
          status dest hfind hb
        simp only [step, hres, IdsOk]
        refine ⟨⟨hpw, fun r hr => Nat.lt_succ_of_lt (hbound r hr)⟩, ?_⟩
        simpa using h3
      · have hres := scanBox_new st.records now boxId u a st.nextId
          status dest hfind hb
        simp only [step, hres, IdsOk]
        constructor
        · constructor
          · rw [List.pairwise_append]
            refine ⟨hpw, List.pairwise_singleton _ _, ?_⟩
            intro x hx y hy
            have hy2 : y = mkNewRecord st.nextId (jsTrim boxId) now u status dest :=
              List.mem_singleton.1 hy
            have : x.id < st.nextId := hbound x hx
            rw [hy2]
            exact Nat.ne_of_lt this
          · intro r hr
            rcases List.mem_append.1 hr with hr2 | hr2
            · exact Nat.lt_succ_of_lt (hbound r hr2)
            · rw [List.mem_singleton.1 hr2]
              exact Nat.lt_succ_self _
        · funext d
          by_cases hstat : status = FinalStatus.TRUE
          · by_cases hd2 : d = dest
            · subst hstat
              subst hd2
              simp [recompute, List.countP_append, incr, finalized,
                mkNewRecord, h3]
            · subst hstat
              simp [recompute, List.countP_append, incr, finalized,
                mkNewRecord, h3, hd2, Ne.symm hd2]
          · have hstat2 : (status == FinalStatus.TRUE) = false := by
              cases status <;> simp_all
            simp [recompute, List.countP_append, incr, finalized,
              mkNewRecord, h3, hstat2]
    | some ex =>
      have hmem : ex ∈ st.records := mem_of_today_find? hfind
      cases a with
      | false =>
        have hres := scanBox_rejected st.records now boxId u st.nextId
          status dest ex hfind
        simp only [step, hres, IdsOk]
        refine ⟨⟨hpw, fun r hr => Nat.lt_succ_of_lt (hbound r hr)⟩, ?_⟩
        simpa using h3
      | true =>
        have hres := scanBox_accepted st.records now boxId u st.nextId
          status dest ex hfind
        simp only [step, hres, IdsOk]
        constructor
        · constructor
          · exact pairwise_updateScanStore (updRec_id ex now) hpw
          · intro r hr
            rcases mem_updateScanStore hr with rfl | hr2
            · exact Nat.lt_succ_of_lt (hbound ex hmem)
            · exact Nat.lt_succ_of_lt (hbound r hr2)
        · have hcnt : ∀ d, (updateScanStore st.records ex.id (updRec ex now)).countP
              (fun r => finalized r && r.destination == d)
              = st.records.countP (fun r => finalized r && r.destination == d) :=
            fun d => countP_updateScanStore _ st.records ex (updRec ex now)
              hmem hpw rfl
          funext d
          simp only [recompute]
          rw [hcnt d, h3]
          rfl
  | del scanId =>
    cases hfind : st.records.find? (fun r => r.id == scanId) with
    | none =>
      simp only [step, hfind]
      exact ⟨⟨hpw, hbound⟩, h3⟩
    | some r =>
      have hmem : r ∈ st.records := List.mem_of_find?_eq_some hfind
      have hbeq := List.find?_some hfind
      have hid : r.id = scanId := by simpa using hbeq
      have hany : (st.records.any fun x => x.id == scanId) = true :=
        List.any_eq_true.2 ⟨r, hmem, hbeq⟩
      have hdel : (deleteFromStore st.records scanId).2
          = st.records.filter fun x => x.id != r.id := by
        simp only [deleteFromStore, if_pos hany, hid]
      simp only [step, hfind, hdel]
      constructor
      · exact ⟨hpw.filter _, fun x hx =>
          hbound x (List.mem_of_mem_filter hx)⟩
      · funext d
        simp only [recompute]
        rw [countP_eraseId _ st.records r hmem hpw]
        cases hf : finalized r with
        | true =>
          simp only [hf, if_pos, decr]
          by_cases hd2 : d = r.destination
          · have hb2 : (r.destination == d) = true := by simp [hd2]
            simp only [hb2, Bool.and_self, if_pos rfl, if_pos hd2]
            rw [h3]
            rfl
          · have hb2 : (r.destination == d) = false := by
              simp
              exact fun hcon => hd2 hcon.symm
            simp only [hb2, Bool.and_false, if_neg hd2]
            rw [h3]
            rfl
        | false =>
          simp only [hf, if_neg, Bool.false_and]
          rw [h3]
          rfl

lemma run_inv (ops : List Op) :
    IdsOk (run ops) ∧ (run ops).counts = recompute (run ops).records := by
  suffices h : ∀ st, IdsOk st → st.counts = recompute st.records →
      IdsOk (ops.foldl step st) ∧
      (ops.foldl step st).counts = recompute (ops.foldl step st).records by
    refine h initState ⟨List.Pairwise.nil, ?_⟩ ?_
    · intro r hr
      cases hr
    · funext d
      rfl
  induction ops with
  | nil => intro st h1 h2; exact ⟨h1, h2⟩
  | cons op t ih =>
    intro st h1 h2
    obtain ⟨h1s, h2s⟩ := step_inv st op h1 h2
    exact ih _ h1s h2s

lemma mem_deleteFromStore {s : List ScanRecord} {i : Nat} {x : ScanRecord}
    (h : x ∈ (deleteFromStore s i).2) : x ∈ s := by
  unfold deleteFromStore at h
  by_cases hany : (s.any fun y => y.id == i) = true
  · rw [if_pos hany] at h
    exact List.mem_of_mem_filter h
  · rw [if_neg hany] at h
    exact h

/-- Records with non-empty box identifiers: an invariant of every reachable
store, because the validation step refuses an empty trimmed boxId before the
creation path runs. -/
def NoEmptyBox (s : List ScanRecord) : Prop := ∀ r ∈ s, r.boxId ≠ ""

lemma step_no_empty (st : SysState) (op : Op) (h : NoEmptyBox st.records) :
    NoEmptyBox (step st op).records := by
  cases op with
  | scan now boxId u a status dest =>
    cases hfind : (todayScans st.records now).find?
        (fun r => r.boxId == jsTrim boxId) with
    | none =>
      by_cases hb : jsTrim boxId = ""
      · have hres := scanBox_validation st.records now boxId u a st.nextId
          status dest hfind hb
        simp only [step, hres]
        exact h
      · have hres := scanBox_new st.records now boxId u a st.nextId
          status dest hfind hb
        simp only [step, hres]
        intro r hr
        rcases List.mem_append.1 hr with hr2 | hr2
        · exact h r hr2
        · rw [List.mem_singleton.1 hr2]
          exact hb
    | some ex =>
      cases a with
      | false =>
        have hres := scanBox_rejected st.records now boxId u st.nextId
          status dest ex hfind
        simp only [step, hres]
        exact h
      | true =>
        have hres := scanBox_accepted st.records now boxId u st.nextId
          status dest ex hfind
        simp only [step, hres]
        intro r hr
        rcases mem_updateScanStore hr with rfl | hr2
        · exact h ex (mem_of_today_find? hfind)
        · exact h r hr2
  | del scanId =>
    cases hfind : st.records.find? (fun r => r.id == scanId) with
    | none =>
      simp only [step, hfind]
      exact h
    | some r =>
      simp only [step, hfind]
      intro x hx
      exact h x (mem_deleteFromStore hx)

lemma run_no_empty (ops : List Op) : NoEmptyBox (run ops).records := by
  suffices h : ∀ st, NoEmptyBox st.records →
      NoEmptyBox (ops.foldl step st).records by
    refine h initState ?_
    intro r hr
    cases hr
  induction ops with
  | nil => exact fun st h => h
  | cons op t ih =>
    intro st h
    exact ih _ (step_no_empty st op h)

lemma todayScans_append (s l : List ScanRecord) (now : Nat) :
    todayScans (s ++ l) now = todayScans s now ++ todayScans l now := by
  simp [todayScans]

lemma updateScanStore_append (s l : List ScanRecord) (i : Nat)
    (u : ScanRecord) :
    updateScanStore (s ++ l) i u = updateScanStore s i u ++ updateScanStore l i u := by
  simp [updateScanStore]

lemma find?_second_scan {s : List ScanRecord} {now : Nat} {b : String}
    {nr : ScanRecord}
    (hnone : (todayScans s now).find? (fun r => r.boxId == b) = none)
    (hday : sameDay nr.timestamp now = true) (hbox : nr.boxId = b) :
    (todayScans (s ++ [nr]) now).find? (fun r => r.boxId == b) = some nr := by
  rw [todayScans_append, List.find?_append, hnone]
  simp [todayScans, hday, hbox]

lemma countP_match_zero {s : List ScanRecord} {now : Nat} {b : String}
    (hnone : (todayScans s now).find? (fun r => r.boxId == b) = none) :
    s.countP (fun r => r.boxId == b && sameDay r.timestamp now) = 0 := by
  apply List.countP_eq_zero.2
  intro r hr hp
  rw [Bool.and_eq_true] at hp
  have hmem : r ∈ todayScans s now := List.mem_filter.2 ⟨hr, hp.2⟩
  exact List.find?_eq_none.1 hnone r hmem hp.1

lemma not_match_of_none {s : List ScanRecord} {now : Nat} {b : String}
    (hnone : (todayScans s now).find? (fun r => r.boxId == b) = none)
    {r : ScanRecord} (hr : r ∈ s)
    (hp : (r.boxId == b && sameDay r.timestamp now) = true) : False := by
  rw [Bool.and_eq_true] at hp
  exact List.find?_eq_none.1 hnone r (List.mem_filter.2 ⟨hr, hp.2⟩) hp.1

example :
    (scanBox [] 0 " B1 " "u@example.com" false 0 FinalStatus.TRUE "D1").outcome
      = Outcome.New := by decide

example :
    (scanBox [mkNewRecord 0 "B1" 0 "u" FinalStatus.TRUE "D1"] 5 "B1" "u" false 1
      FinalStatus.TRUE "D1").outcome = Outcome.RejectedDuplicate := by decide

example :
    ((scanBox [mkNewRecord 0 "B1" 0 "u" FinalStatus.TRUE "D1"] 5 "B1" "u" true 1
      FinalStatus.TRUE "D1").record.map ScanRecord.duplicateCount) = some 2 := by
  decide

/-- Claim C3: for every boxId with no existing ScanRecord on the current
calendar day, the scan operation creates a new ScanRecord with
isDuplicate=false and duplicateCount=1 and returns a New outcome.
(Creation path modelled from the spec; the duplicate check is from the
source.) -/
theorem scan_new_box_creates_record (s : List ScanRecord) (now : Nat)
    (b u : String) (a : Bool) (fid : Nat) (st : FinalStatus) (d : String)
    (hb : jsTrim b ≠ "")
    (hnone : (todayScans s now).find? (fun r => r.boxId == jsTrim b) = none) :
    (scanBox s now b u a fid st d).outcome = Outcome.New ∧
    (scanBox s now b u a fid st d).success = true ∧
    (scanBox s now b u a fid st d).record
      = some (mkNewRecord fid (jsTrim b) now u st d) ∧
    (mkNewRecord fid (jsTrim b) now u st d).isDuplicate = false ∧
    (mkNewRecord fid (jsTrim b) now u st d).duplicateCount = 1 ∧
    (scanBox s now b u a fid st d).store
      = s ++ [mkNewRecord fid (jsTrim b) now u st d] := by
  rw [scanBox_new s now b u a fid st d hnone hb]
  exact ⟨rfl, rfl, rfl, rfl, rfl, rfl⟩

/-- Witness for C3 at a concrete input. -/
theorem scan_new_box_creates_record_witness :
    jsTrim " B1 " ≠ "" ∧
    (scanBox [] 0 " B1 " "u@example.com" false 0 FinalStatus.TRUE "D1").outcome
      = Outcome.New ∧
    (scanBox [] 0 " B1 " "u@example.com" false 0 FinalStatus.TRUE "D1").record
      = some (mkNewRecord 0 (jsTrim " B1 ") 0 "u@example.com" FinalStatus.TRUE "D1") := by
  have h := scan_new_box_creates_record [] 0 " B1 " "u@example.com" false 0
    FinalStatus.TRUE "D1" (by decide) (by decide)
  exact ⟨by decide, h.1, h.2.2.1⟩

/-- Claim C4: on every reachable store, a scan whose boxId is empty after
trimming fails with ValidationError and neither creates nor mutates any
record. (The validation itself is modelled from the spec, as the creation
path is elided in the source; reachable stores never hold an empty boxId.) -/
theorem scan_empty_boxId_validation_error (ops : List Op) (now : Nat)
    (b u : String) (a : Bool) (fid : Nat) (st : FinalStatus) (d : String)
    (hb : jsTrim b = "") :
    (scanBox (run ops).records now b u a fid st d).outcome
      = Outcome.ValidationError ∧
    (scanBox (run ops).records now b u a fid st d).success = false ∧
    (scanBox (run ops).records now b u a fid st d).store = (run ops).records ∧
    (scanBox (run ops).records now b u a fid st d).record = none := by
  have hclean := run_no_empty ops
  have hnone : (todayScans (run ops).records now).find?
      (fun r => r.boxId == jsTrim b) = none := by
    rw [hb]
    apply List.find?_eq_none.2
    intro x hx hcon
    exact hclean x (List.mem_of_mem_filter hx) (by simpa using hcon)
  rw [scanBox_validation (run ops).records now b u a fid st d hnone hb]
  exact ⟨rfl, rfl, rfl, rfl⟩

/-- Witness for C4 at a concrete input. -/
theorem scan_empty_boxId_validation_error_witness :
    jsTrim "   " = "" ∧
    (scanBox (run []).records 0 "   " "u@example.com" true 0 FinalStatus.TRUE
      "D1").outcome = Outcome.ValidationError := by
  have h := scan_empty_boxId_validation_error [] 0 "   " "u@example.com" true 0
    FinalStatus.TRUE "D1" (by decide)
  exact ⟨by decide, h.1⟩

/-- Claim C6 counterexample: with allowDuplicate=true, re-issuing the same
scan command after a completed scan does NOT leave the record store in the
same state as the single issuance — the retry increments duplicateCount
again (source: `duplicateCount: (existingScan.duplicateCount || 1) + 1`). -/
theorem scan_retry_allowDuplicate_not_idempotent :
    (scanBox (scanBox [mkNewRecord 0 "B1" 0 "u@example.com" FinalStatus.TRUE "D1"]
        0 "B1" "u@example.com" true 1 FinalStatus.TRUE "D1").store
        0 "B1" "u@example.com" true 2 FinalStatus.TRUE "D1").store ≠
      (scanBox [mkNewRecord 0 "B1" 0 "u@example.com" FinalStatus.TRUE "D1"]
        0 "B1" "u@example.com" true 1 FinalStatus.TRUE "D1").store := by
  decide

/-- Claim C6 (amended): the scan command is idempotent per the
duplicate-detection rule when allowDuplicate=false — re-issuing the same
command leaves the record store exactly as after the single issuance. -/
theorem scan_retry_noDuplicate_idempotent (s : List ScanRecord) (now : Nat)
    (b u1 u2 : String) (fid1 fid2 : Nat) (st1 st2 : FinalStatus)
    (d1 d2 : String) :
    (scanBox (scanBox s now b u1 false fid1 st1 d1).store now b u2 false fid2
        st2 d2).store
      = (scanBox s now b u1 false fid1 st1 d1).store := by
  cases hfind : (todayScans s now).find? (fun r => r.boxId == jsTrim b) with
  | some ex =>
    rw [scanBox_rejected s now b u1 fid1 st1 d1 ex hfind]
    rw [scanBox_rejected s now b u2 fid2 st2 d2 ex hfind]
  | none =>
    by_cases hb : jsTrim b = ""
    · rw [scanBox_validation s now b u1 false fid1 st1 d1 hfind hb]
      rw [scanBox_validation s now b u2 false fid2 st2 d2 hfind hb]
    · rw [scanBox_new s now b u1 false fid1 st1 d1 hfind hb]
      have hfind2 := find?_second_scan hfind
        (show sameDay (mkNewRecord fid1 (jsTrim b) now u1 st1 d1).timestamp now
            = true by simp [mkNewRecord, sameDay]) rfl
      rw [scanBox_rejected _ now b u2 fid2 st2 d2 _ hfind2]

/-- Claim C7: the deleteScan controller both imports `deleteScan` from the
data store and re-declares it at module scope — a duplicate lexical binding,
so the store's delete is never reachable from the handler (the inner call
resolves to the handler itself). -/
theorem deleteScan_duplicate_binding :
    duplicateModuleBinding = true ∧
    "deleteScan" ∈ scanControllerImports ∧
    "deleteScan" ∈ scanControllerTopLevelConsts := by
  decide

/-- Claim C8: after any sequence of operations, the incrementally maintained
Destination Aggregator snapshot equals a full recompute over all stored
finalized ScanRecords grouped by destination label. -/
theorem counts_incremental_eq_recompute (ops : List Op) :
    (run ops).counts = recompute (run ops).records :=
  (run_inv ops).2

/-- Claim C1: scanning a box already recorded by a scan earlier on the same
calendar day, with allowDuplicate=false, yields a RejectedDuplicate outcome
whose response carries the existing record, mutates no record, and leaves
exactly one ScanRecord for that (boxId, day) with duplicateCount=1 — for any
second-scan time falling on that calendar day, not just the instant of the
first scan. -/
theorem scan_twice_reject_duplicate (s : List ScanRecord) (now1 now2 : Nat)
    (b u1 u2 : String) (a1 : Bool) (fid1 fid2 : Nat) (st1 st2 : FinalStatus)
    (d1 d2 : String) (hb : jsTrim b ≠ "")
    (hday : sameDay now1 now2 = true)
    (hnone : (todayScans s now1).find? (fun r => r.boxId == jsTrim b) = none) :
    (scanBox s now1 b u1 a1 fid1 st1 d1).outcome = Outcome.New ∧
    (scanBox (scanBox s now1 b u1 a1 fid1 st1 d1).store now2 b u2 false fid2
      st2 d2).outcome = Outcome.RejectedDuplicate ∧
    (scanBox (scanBox s now1 b u1 a1 fid1 st1 d1).store now2 b u2 false fid2
      st2 d2).success = false ∧
    (scanBox (scanBox s now1 b u1 a1 fid1 st1 d1).store now2 b u2 false fid2
      st2 d2).record = (scanBox s now1 b u1 a1 fid1 st1 d1).record ∧
    (scanBox (scanBox s now1 b u1 a1 fid1 st1 d1).store now2 b u2 false fid2
      st2 d2).store = (scanBox s now1 b u1 a1 fid1 st1 d1).store ∧
    (scanBox s now1 b u1 a1 fid1 st1 d1).store.countP
      (fun r => r.boxId == jsTrim b && sameDay r.timestamp now2) = 1 ∧
    ∀ r ∈ (scanBox s now1 b u1 a1 fid1 st1 d1).store,
      (r.boxId == jsTrim b && sameDay r.timestamp now2) = true →
      r.duplicateCount = 1 := by
  have hres1 := scanBox_new s now1 b u1 a1 fid1 st1 d1 hnone hb
  have hd : dayOf now1 = dayOf now2 := by
    simpa [sameDay] using hday
  have htoday : todayScans s now1 = todayScans s now2 := by
    simp only [todayScans, sameDay, hd]
  have hnone2 : (todayScans s now2).find? (fun r => r.boxId == jsTrim b)
      = none := htoday ▸ hnone
  have hday2 : sameDay (mkNewRecord fid1 (jsTrim b) now1 u1 st1 d1).timestamp
      now2 = true := hday
  have hfind2 := find?_second_scan hnone2 hday2 rfl
  have hres2 := scanBox_rejected
    (s ++ [mkNewRecord fid1 (jsTrim b) now1 u1 st1 d1]) now2 b u2 fid2 st2 d2
    _ hfind2
  rw [hres1]
  rw [hres2]
  refine ⟨rfl, rfl, rfl, rfl, rfl, ?_, ?_⟩
  · rw [List.countP_append, countP_match_zero hnone2]
    simp [mkNewRecord, hday2, hday]
  · intro r hr hp
    rcases List.mem_append.1 hr with hr2 | hr2
    · exact absurd hp (fun hp2 => not_match_of_none hnone2 hr2 hp2)
    · rw [List.mem_singleton.1 hr2]
      rfl

/-- Witness for C1 at a concrete input: first scan at 09:00, a distinct second
scan at 09:05 the same day. -/
theorem scan_twice_reject_duplicate_witness :
    jsTrim "B1" ≠ "" ∧
    sameDay 32400000 32700000 = true ∧
    (scanBox (scanBox [] 32400000 "B1" "u@example.com" false 0 FinalStatus.TRUE
        "D1").store 32700000 "B1" "u@example.com" false 1 FinalStatus.PENDING
        "D2").outcome = Outcome.RejectedDuplicate ∧
    (scanBox (scanBox [] 32400000 "B1" "u@example.com" false 0 FinalStatus.TRUE
        "D1").store 32700000 "B1" "u@example.com" false 1 FinalStatus.PENDING
        "D2").store = (scanBox [] 32400000 "B1" "u@example.com" false 0
        FinalStatus.TRUE "D1").store := by
  have h := scan_twice_reject_duplicate [] 32400000 32700000 "B1"
    "u@example.com" "u@example.com" false 0 1 FinalStatus.TRUE
    FinalStatus.PENDING "D1" "D2" (by decide) (by decide) (by decide)
  exact ⟨by decide, by decide, h.2.1, h.2.2.2.2.1⟩

/-- Claim C2: an accepted same-day duplicate creates no new record but mutates
the existing one — isDuplicate=true, duplicateCount incremented by one,
lastScanned refreshed — and returns AcceptedDuplicate carrying the updated
record; scanning a box twice with allowDuplicate=true on the second scan
yields one ScanRecord for that (boxId, day) with duplicateCount=2. -/
theorem scan_accept_duplicate_increments :
    (∀ (s : List ScanRecord) (now : Nat) (b u : String) (fid : Nat)
      (st : FinalStatus) (d : String) (ex : ScanRecord),
      (todayScans s now).find? (fun r => r.boxId == jsTrim b) = some ex →
      1 ≤ ex.duplicateCount →
      (scanBox s now b u true fid st d).outcome = Outcome.AcceptedDuplicate ∧
      (scanBox s now b u true fid st d).success = true ∧
      (scanBox s now b u true fid st d).record = some
        { ex with
          isDuplicate := true
          duplicateCount := ex.duplicateCount + 1
          lastScanned := now } ∧
      (scanBox s now b u true fid st d).store
        = updateScanStore s ex.id (updRec ex now) ∧
      (scanBox s now b u true fid st d).store.length = s.length) ∧
    (∀ (s : List ScanRecord) (now : Nat) (b u1 u2 : String) (a1 : Bool)
      (fid1 fid2 : Nat) (st1 st2 : FinalStatus) (d1 d2 : String),
      jsTrim b ≠ "" →
      (todayScans s now).find? (fun r => r.boxId == jsTrim b) = none →
      (∀ r ∈ s, r.id ≠ fid1) →
      (scanBox (scanBox s now b u1 a1 fid1 st1 d1).store now b u2 true fid2 st2
          d2).store.countP
        (fun r => r.boxId == jsTrim b && sameDay r.timestamp now) = 1 ∧
      ∀ r ∈ (scanBox (scanBox s now b u1 a1 fid1 st1 d1).store now b u2 true
          fid2 st2 d2).store,
        (r.boxId == jsTrim b && sameDay r.timestamp now) = true →
        r.duplicateCount = 2 ∧ r.isDuplicate = true) := by
  constructor
  · intro s now b u fid st d ex hfind hdc
    rw [scanBox_accepted s now b u fid st d ex hfind]
    have hupd : updRec ex now =
        { ex with
          isDuplicate := true
          duplicateCount := ex.duplicateCount + 1
          lastScanned := now } := by
      unfold updRec
      have : ¬ex.duplicateCount = 0 := by omega
      rw [if_neg this]
    refine ⟨rfl, rfl, ?_, rfl, ?_⟩
    · rw [hupd]
    · exact List.length_map _ _
  · intro s now b u1 u2 a1 fid1 fid2 st1 st2 d1 d2 hb hnone hfresh
    rw [scanBox_new s now b u1 a1 fid1 st1 d1 hnone hb]
    have hday : sameDay (mkNewRecord fid1 (jsTrim b) now u1 st1 d1).timestamp
        now = true := by simp [mkNewRecord, sameDay]
    have hfind2 := find?_second_scan hnone hday rfl
    rw [scanBox_accepted (s ++ [mkNewRecord fid1 (jsTrim b) now u1 st1 d1])
      now b u2 fid2 st2 d2 _ hfind2]
    have hstore : updateScanStore (s ++ [mkNewRecord fid1 (jsTrim b) now u1 st1 d1])
        (mkNewRecord fid1 (jsTrim b) now u1 st1 d1).id
        (updRec (mkNewRecord fid1 (jsTrim b) now u1 st1 d1) now)
        = s ++ [updRec (mkNewRecord fid1 (jsTrim b) now u1 st1 d1) now] := by
      rw [show (mkNewRecord fid1 (jsTrim b) now u1 st1 d1).id = fid1 from rfl]
      rw [updateScanStore_append]
      rw [updateScanStore_not_mem hfresh]
      simp only [updateScanStore, List.map_cons, List.map_nil]
      rw [if_pos (show (mkNewRecord fid1 (jsTrim b) now u1 st1 d1).id = fid1
        from rfl)]
    rw [hstore]
    constructor
    · rw [List.countP_append, countP_match_zero hnone]
      simp [updRec, mkNewRecord, sameDay]
    · intro r hr hp
      rcases List.mem_append.1 hr with hr2 | hr2
      · exact absurd hp (fun hp2 => not_match_of_none hnone hr2 hp2)
      · rw [List.mem_singleton.1 hr2]
        exact ⟨rfl, rfl⟩

/-- Witness for C2 at a concrete input. -/
theorem scan_accept_duplicate_increments_witness :
    (scanBox (scanBox [] 0 "B1" "u@example.com" false 0 FinalStatus.TRUE
        "D1").store 0 "B1" "u@example.com" true 1 FinalStatus.PENDING
        "D2").store.countP
      (fun r => r.boxId == jsTrim "B1" && sameDay r.timestamp 0) = 1 := by
  have h := (scan_accept_duplicate_increments).2 [] 0 "B1" "u@example.com"
    "u@example.com" false 0 1 FinalStatus.TRUE FinalStatus.PENDING "D1" "D2"
    (by decide) (by decide) (by intro r hr; cases hr)
  exact h.1

/-- Claim C9: a scan that returns New or AcceptedDuplicate triggers a
Destination Aggregator update, while a scan that returns RejectedDuplicate
leaves the aggregator (and the whole store feeding it) entirely unchanged.
(The update invocation on New/Accepted is the spec's side-effect wiring,
§4.1; the rejection branch of the source returns before any side effect.) -/
theorem outcome_aggregator_effects :
    (∀ (s : List ScanRecord) (now : Nat) (b u : String) (a : Bool) (fid : Nat)
      (st : FinalStatus) (d : String),
      (((scanBox s now b u a fid st d).outcome = Outcome.New ∨
        (scanBox s now b u a fid st d).outcome = Outcome.AcceptedDuplicate) →
        (scanBox s now b u a fid st d).aggUpdated = true) ∧
      ((scanBox s now b u a fid st d).outcome = Outcome.RejectedDuplicate →
        (scanBox s now b u a fid st d).aggUpdated = false ∧
        (scanBox s now b u a fid st d).store = s)) ∧
    (∀ (sys : SysState) (now : Nat) (b u : String) (a : Bool)
      (st : FinalStatus) (d : String),
      (scanBox sys.records now b u a sys.nextId st d).outcome
        = Outcome.RejectedDuplicate →
      (step sys (Op.scan now b u a st d)).counts = sys.counts ∧
      (step sys (Op.scan now b u a st d)).records = sys.records) := by
  constructor
  · intro s now b u a fid st d
    cases hfind : (todayScans s now).find? (fun r => r.boxId == jsTrim b) with
    | some ex =>
      cases a with
      | false =>
        rw [scanBox_rejected s now b u fid st d ex hfind]
        refine ⟨?_, ?_⟩
        · intro h
          rcases h with h | h <;> cases h
        · intro _
          exact ⟨rfl, rfl⟩
      | true =>
        rw [scanBox_accepted s now b u fid st d ex hfind]
        refine ⟨fun _ => rfl, ?_⟩
        intro h
        cases h
    | none =>
      by_cases hb : jsTrim b = ""
      · rw [scanBox_validation s now b u a fid st d hfind hb]
        refine ⟨?_, ?_⟩
        · intro h
          rcases h with h | h <;> cases h
        · intro h
          cases h
      · rw [scanBox_new s now b u a fid st d hfind hb]
        refine ⟨fun _ => rfl, ?_⟩
        intro h
        cases h
  · intro sys now b u a st d hrej
    cases hfind : (todayScans sys.records now).find?
        (fun r => r.boxId == jsTrim b) with
    | some ex =>
      cases a with
      | false =>
        have hres := scanBox_rejected sys.records now b u sys.nextId st d ex
          hfind
        simp [step, hres]
      | true =>
        rw [scanBox_accepted sys.records now b u sys.nextId st d ex hfind]
          at hrej
        cases hrej
    | none =>
      by_cases hb : jsTrim b = ""
      · rw [scanBox_validation sys.records now b u a sys.nextId st d hfind hb]
          at hrej
        cases hrej
      · rw [scanBox_new sys.records now b u a sys.nextId st d hfind hb] at hrej
        cases hrej

/-- Witness for C9 at a concrete input (a rejected duplicate touches
nothing). -/
theorem outcome_aggregator_effects_witness :
    (scanBox [mkNewRecord 0 "B1" 0 "u@example.com" FinalStatus.TRUE "D1"] 0
      "B1" "u@example.com" false 1 FinalStatus.TRUE "D1").aggUpdated = false ∧
    (scanBox [mkNewRecord 0 "B1" 0 "u@example.com" FinalStatus.TRUE "D1"] 0
      "B1" "u@example.com" false 1 FinalStatus.TRUE "D1").store
      = [mkNewRecord 0 "B1" 0 "u@example.com" FinalStatus.TRUE "D1"] :=
  (outcome_aggregator_effects.1
    [mkNewRecord 0 "B1" 0 "u@example.com" FinalStatus.TRUE "D1"] 0 "B1"
    "u@example.com" false 1 FinalStatus.TRUE "D1").2 (by decide)

/-- Claim C10: the history listing returns one entry per stored ScanRecord in
the same order, every field unchanged except isDuplicate and duplicateCount,
which are recomputed from record multiplicity: duplicateCount is the number of
stored records sharing the scan's boxId and calendar day, isDuplicate is true
iff that number exceeds 1 — so a sole record whose stored duplicateCount was
incremented by accepted duplicates is reported with isDuplicate=false and
duplicateCount=1. -/
theorem history_recomputes_duplicates (s : List ScanRecord) (i : Nat)
    (h : i < s.length) :
    (getScansWithDuplicates s).length = s.length ∧
    (∀ h2 : i < (getScansWithDuplicates s).length,
      (getScansWithDuplicates s).get ⟨i, h2⟩ =
        { s.get ⟨i, h⟩ with
          isDuplicate := decide (1 < s.countP fun r =>
            r.boxId == (s.get ⟨i, h⟩).boxId &&
              sameDay r.timestamp (s.get ⟨i, h⟩).timestamp)
          duplicateCount := s.countP fun r =>
            r.boxId == (s.get ⟨i, h⟩).boxId &&
              sameDay r.timestamp (s.get ⟨i, h⟩).timestamp }) ∧
    ((s.countP fun r => r.boxId == (s.get ⟨i, h⟩).boxId &&
        sameDay r.timestamp (s.get ⟨i, h⟩).timestamp) = 1 →
      ∀ h2 : i < (getScansWithDuplicates s).length,
        (getScansWithDuplicates s).get ⟨i, h2⟩ =
          { s.get ⟨i, h⟩ with
            isDuplicate := false
            duplicateCount := 1 }) := by
  have hmain : ∀ h2 : i < (getScansWithDuplicates s).length,
      (getScansWithDuplicates s).get ⟨i, h2⟩ =
        { s.get ⟨i, h⟩ with
          isDuplicate := decide (1 < s.countP fun r =>
            r.boxId == (s.get ⟨i, h⟩).boxId &&
              sameDay r.timestamp (s.get ⟨i, h⟩).timestamp)
          duplicateCount := s.countP fun r =>
            r.boxId == (s.get ⟨i, h⟩).boxId &&
              sameDay r.timestamp (s.get ⟨i, h⟩).timestamp } := by
    intro h2
    simp only [getScansWithDuplicates, List.get_eq_getElem, List.getElem_map,
      List.countP_eq_length_filter]
  refine ⟨List.length_map _ _, hmain, ?_⟩
  intro hc h2
  rw [hmain h2, hc]
  rfl

/-- Witness for C10 at a concrete input: a single stored record whose stored
duplicateCount is 2 is reported with isDuplicate=false, duplicateCount=1. -/
theorem history_recomputes_duplicates_witness :
    (getScansWithDuplicates [updRec (mkNewRecord 0 "B1" 0 "u@example.com"
        FinalStatus.TRUE "D1") 0]).get ⟨0, by decide⟩ =
      { ([updRec (mkNewRecord 0 "B1" 0 "u@example.com" FinalStatus.TRUE "D1")
          0]).get ⟨0, by decide⟩ with
        isDuplicate := false
        duplicateCount := 1 } := by
  have h := history_recomputes_duplicates
    [updRec (mkNewRecord 0 "B1" 0 "u@example.com" FinalStatus.TRUE "D1") 0] 0
    (by decide)
  exact h.2.2 (by decide) (by decide)

/-- The scan request used to exhibit the duplicate-check race. -/
def raceReq : ScanRequest :=
  { now := 0
    boxId := "B1"
    userEmail := "u@example.com"
    allowDuplicate := false
    status := FinalStatus.TRUE
    dest := "D1" }

/-- Both requests pending, empty store. -/
def raceInit : RaceState :=
  { store := [], nextId := 0, phase1 := ReqPhase.toRead, phase2 := ReqPhase.toRead }

/-- Claim C5: the at-most-one-winner guarantee fails on the source. Two scan
requests for the same boxId on the same day, interleaved so that both reads
precede both writes (which the cooperative scheduling of spec §5 permits,
since `await getScans()` is a suspension point and no lock is held), are BOTH
classified New, and the store ends with two ScanRecords for ("B1", day 0). -/
theorem race_two_new_records :
    (runRace raceReq raceReq [true, false, true, false] raceInit).phase1
      = ReqPhase.finished Outcome.New ∧
    (runRace raceReq raceReq [true, false, true, false] raceInit).phase2
      = ReqPhase.finished Outcome.New ∧
    (runRace raceReq raceReq [true, false, true, false] raceInit).store.countP
      (fun r => r.boxId == "B1" && sameDay r.timestamp 0) = 2 := by
  decide
